import Mathlib

/-!
Shallow embedding of `.githooks/pre-commit.py`: a pre-commit hook that scans
the working directory for Excel workbooks, extracts VBA macro modules into
`src.vba/`, and writes seven text reports per workbook into `excel_reports/`.

The two third-party libraries (openpyxl, oletools) are modelled as the data
they hand to the script: a `Workbook` records, for every cell, the value the
formula-preserving view (`data_only=False`) and the value-evaluated view
(`data_only=True`) would expose, together with the style, hyperlink, merged
range, conditional formatting, data validation and defined-name data the
script reads.  Python values that can sit in a cell are `PyValue`; the
`isinstance` tests, truthiness and `str()` rendering the script relies on are
embedded explicitly (in Python, `bool` is a subclass of `int`, so
`isinstance(True, (int, float))` holds).
-/

namespace PreCommit

/-- A Python value as it occurs in an openpyxl cell (`cell.value`).
`pyFloat` carries the string `str()` would print and whether the float is
nonzero (its truthiness); `pyOther` likewise carries its `str()` text and its
truthiness. -/
inductive PyValue where
  | pyNone
  | pyStr (s : String)
  | pyBool (b : Bool)
  | pyInt (n : Int)
  | pyFloat (text : String) (nonzero : Bool)
  | pyOther (text : String) (truthy : Bool)
  deriving DecidableEq

/-- Python `isinstance(v, str)`. -/
def isinstanceStr : PyValue → Bool
  | .pyStr _ => true
  | _ => false

/-- Python `isinstance(v, (int, float))`.  True for booleans as well, since
`bool` is a subclass of `int` in Python. -/
def isinstanceIntOrFloat : PyValue → Bool
  | .pyInt _ => true
  | .pyFloat _ _ => true
  | .pyBool _ => true
  | _ => false

/-- Python `isinstance(v, bool)`. -/
def isinstanceBool : PyValue → Bool
  | .pyBool _ => true
  | _ => false

/-- Python truthiness of a cell value (`if cell.value:`). -/
def pyTruthy : PyValue → Bool
  | .pyNone => false
  | .pyStr s => !s.isEmpty
  | .pyBool b => b
  | .pyInt n => decide (n ≠ 0)
  | .pyFloat _ nz => nz
  | .pyOther _ t => t

/-- Python `str(v)` / f-string interpolation of a cell value. -/
def pyStrOf : PyValue → String
  | .pyNone => "None"
  | .pyStr s => s
  | .pyBool b => if b then "True" else "False"
  | .pyInt n => toString n
  | .pyFloat t _ => t
  | .pyOther t _ => t

/-- Lines 72-79 of the script: classify a non-empty cell value.  The chain
is `str` then `(int, float)` then `bool` then the fallback, exactly in the
source's order. -/
def cellTypeOf (v : PyValue) : String :=
  if isinstanceStr v then "Text"
  else if isinstanceIntOrFloat v then "Number"
  else if isinstanceBool v then "Boolean"
  else "Other"

/-- One spreadsheet cell as the script reads it.  `valueFormulaView` is
`cell.value` in the workbook loaded with `data_only=False` (the entered
content: formula text for a formula cell); `valueEvalView` is `cell.value`
in the `data_only=True` load (the cached computed result).  Style fields are
the Python values the f-strings interpolate; `fontColorRgb`/`fillColorRgb`
are `none` when `cell.font.color` / `cell.fill.start_color` is falsy, and
`hyperlinkTarget` is `none` when `cell.hyperlink` is falsy. -/
structure Cell where
  coordinate : String
  valueFormulaView : PyValue
  valueEvalView : PyValue
  fontName : PyValue
  fontSize : PyValue
  fontBold : PyValue
  fontItalic : PyValue
  fontColorRgb : Option String
  fillColorRgb : Option String
  alignmentHorizontal : PyValue
  numberFormat : String
  hyperlinkTarget : Option String
  deriving DecidableEq

/-- One data-validation rule (`sheet.data_validations.dataValidation`). -/
structure DataValidation where
  sqref : String
  formula1 : String
  allowType : String
  operator : String
  deriving DecidableEq

/-- One worksheet: the row-major cell grid (`sheet.iter_rows()`), plus the
conditional-formatting rules (rule text and applied range text), merged
ranges and data validations the script iterates. -/
structure Sheet where
  name : String
  rows : List (List Cell)
  conditionalFormatting : List (String × String)
  mergedRanges : List String
  dataValidations : List DataValidation
  deriving DecidableEq

/-- One workbook file as both libraries expose it to the script: the sheets,
the workbook-level defined names (name and `attr_text`), the answer of
`VBA_Parser.detect_vba_macros()`, and the modules `extract_all_macros()`
returns (only the third and fourth tuple components, `filename` and
`content`, are used by the script). -/
structure Workbook where
  sheets : List Sheet
  definedNames : List (String × String)
  detectVbaMacros : Bool
  macros : List (String × String)
  deriving DecidableEq

/-- Line 6 of the script. -/
def EXCEL_FILE_EXTENSIONS : List String :=
  ["xlsb", "xls", "xlsm", "xla", "xlt", "xlam", "xlsx"]

/-- Line 7 of the script. -/
def KEEP_NAME : Bool := false

/-- List version of Python `needle in haystack` (substring containment). -/
def listHasSub (needle : List Char) : List Char → Bool
  | [] => decide (needle = [])
  | c :: rest => needle.isPrefixOf (c :: rest) || listHasSub needle rest

/-- Python `needle in haystack` on strings. -/
def strHasSub (haystack needle : String) : Bool :=
  listHasSub needle.data haystack.data

/-- Python `s.startswith(pre)`. -/
def pyStartswith (s pre : String) : Bool :=
  pre.data.isPrefixOf s.data

/-- Python `str.splitlines()` restricted to the line breaks one meets in VBA
source: splits at carriage return + line feed, lone carriage return or lone
line feed, with no trailing empty line for a terminal break. -/
def pySplitlinesAux : List Char → List Char → List String
  | [], [] => []
  | [], acc => [String.mk acc.reverse]
  | '\r' :: '\n' :: rest, acc => String.mk acc.reverse :: pySplitlinesAux rest []
  | '\r' :: rest, acc => String.mk acc.reverse :: pySplitlinesAux rest []
  | '\n' :: rest, acc => String.mk acc.reverse :: pySplitlinesAux rest []
  | c :: rest, acc => pySplitlinesAux rest (c :: acc)

/-- Python `content.splitlines()`. -/
def pySplitlines (s : String) : List String :=
  pySplitlinesAux s.data []

/-- Lines 19-24 of the script: keep a line unless it starts with `Attribute`,
except that a line containing `VB_Name` survives when `KEEP_NAME` is set. -/
def filterModuleContent (content : String) : List String :=
  (pySplitlines content).filter fun line =>
    !pyStartswith line "Attribute" || (strHasSub line "VB_Name" && KEEP_NAME)

/-- A filesystem side effect of the script: `os.makedirs(d, exist_ok=True)`,
`open(p, "w").write(c)`, or the guarded `shutil.rmtree(d)` of the main
block (a no-op when the directory does not exist, thanks to the
`os.path.exists` guard). -/
inductive FsOp where
  | mkdir (d : String)
  | writeFile (p : String) (c : String)
  | rmtree (d : String)
  deriving DecidableEq

/-- Lines 10-34 of the script, `parse_vba`, as the list of filesystem
effects it performs in order: for each module whose filtered content is
non-empty, `os.makedirs("src.vba", exist_ok=True)` then the write of
`"\n".join(content_filtered)` to `src.vba/{file_prefix}_{filename}`.
Modules whose filtered content is empty produce no effect at all. -/
def parse_vba (wb : Workbook) ( file_prefix : String) : List FsOp :=
  (if wb.detectVbaMacros then wb.macros else []).flatMap fun m =>
    let content_filtered := filterModuleContent m.2
    if content_filtered.isEmpty then []
    else [FsOp.mkdir "src.vba",
          FsOp.writeFile ("src.vba/" ++ file_prefix ++ "_" ++ m.1)
            (String.intercalate "\n" content_filtered)]

/-- The `"-" * 40` separator under every section header. -/
def dashes : String := String.mk (List.replicate 40 '-')

/-- The `Sheet: {sheet_name}` header line prepended to each sheet-scoped
report section. -/
def sheetHeader (sheetName : String) : String :=
  "Sheet: " ++ sheetName ++ "\n" ++ dashes

/-- Render an optional RGB string the way the conditional expressions on
lines 95-96 do: the rgb text when the color object is truthy, `None`
otherwise. -/
def rgbOrNone : Option String → String
  | some rgb => rgb
  | none => "None"

/-- Lines 66-84: the formulas-and-values section of one sheet.  The script
iterates `sheet.iter_rows()` where `sheet` comes from the workbook loaded
with `data_only=False`, so `cell.value` here is `valueFormulaView`; the
`eval_sheet` bound on line 64 is never read. -/
def formulasSection (sheet : Sheet) : List String :=
  sheetHeader sheet.name ::
  sheet.rows.flatMap fun row =>
    row.filterMap fun cell =>
      if cell.valueFormulaView = PyValue.pyNone then none
      else some ("Cell " ++ cell.coordinate ++ ": Value='"
        ++ pyStrOf cell.valueFormulaView ++ "', Type='"
        ++ cellTypeOf cell.valueFormulaView ++ "'")

/-- Lines 87-98: the formatting section of one sheet (cells with a truthy
value in the `data_only=False` view). -/
def formattingSection (sheet : Sheet) : List String :=
  sheetHeader sheet.name ::
  sheet.rows.flatMap fun row =>
    row.filterMap fun cell =>
      if pyTruthy cell.valueFormulaView then
        some ("Cell " ++ cell.coordinate ++ ": Font='" ++ pyStrOf cell.fontName
          ++ "', Size=" ++ pyStrOf cell.fontSize
          ++ ", Bold=" ++ pyStrOf cell.fontBold
          ++ ", Italic=" ++ pyStrOf cell.fontItalic
          ++ ", Font Color=" ++ rgbOrNone cell.fontColorRgb
          ++ ", Fill Color=" ++ rgbOrNone cell.fillColorRgb
          ++ ", Alignment=" ++ pyStrOf cell.alignmentHorizontal
          ++ ", Number Format='" ++ cell.numberFormat ++ "'")
      else none

/-- Lines 101-108: the conditional-formatting section of one sheet.  The
iteration is guarded by the truthiness of the rule collection; an empty
collection contributes nothing either way. -/
def conditionalSection (sheet : Sheet) : List String :=
  sheetHeader sheet.name ::
  (if sheet.conditionalFormatting.isEmpty then []
   else sheet.conditionalFormatting.map fun r =>
     "Rule: " ++ r.1 ++ ", Applied to: " ++ r.2)

/-- Lines 110-114: the merged-cells section of one sheet. -/
def mergedSection (sheet : Sheet) : List String :=
  sheetHeader sheet.name ::
  sheet.mergedRanges.map fun r => "Merged Range: " ++ r

/-- Lines 116-123: the data-validations section of one sheet. -/
def validationsSection (sheet : Sheet) : List String :=
  sheetHeader sheet.name ::
  (if sheet.dataValidations.isEmpty then []
   else sheet.dataValidations.map fun dv =>
     "Range: " ++ dv.sqref ++ ", Formula: " ++ dv.formula1
       ++ ", Allow Type: " ++ dv.allowType ++ ", Criteria: " ++ dv.operator)

/-- Lines 125-133: the hyperlinks section of one sheet. -/
def hyperlinksSection (sheet : Sheet) : List String :=
  sheetHeader sheet.name ::
  sheet.rows.flatMap fun row =>
    row.filterMap fun cell =>
      match cell.hyperlinkTarget with
      | some target =>
        some ("Cell " ++ cell.coordinate ++ ": Hyperlink='" ++ target ++ "'")
      | none => none

/-- Lines 55-60: the workbook-level named-ranges section. -/
def namedRangesSection (wb : Workbook) : List String :=
  ("Workbook Named Ranges\n" ++ dashes) ::
  wb.definedNames.map fun n => "Name: " ++ n.1 ++ ", Refers To: " ++ n.2

/-- Line 138: one report file's bytes, `"\n".join(content) + "\n"`. -/
def joinReport (lines : List String) : String :=
  String.intercalate "\n" lines ++ "\n"

/-- Lines 37-138, `generate_text_reports`, as the mapping from report file
name to file content, in the insertion (and hence write) order of the
`reports` dict. -/
def generate_text_reports (wb : Workbook) ( file_prefix : String) :
    List (String × String) :=
  [( file_prefix ++ "_formulas_and_values.txt",
      joinReport (wb.sheets.flatMap formulasSection)),
   ( file_prefix ++ "_formatting.txt",
      joinReport (wb.sheets.flatMap formattingSection)),
   ( file_prefix ++ "_conditional_formatting.txt",
      joinReport (wb.sheets.flatMap conditionalSection)),
   ( file_prefix ++ "_merged_cells.txt",
      joinReport (wb.sheets.flatMap mergedSection)),
   ( file_prefix ++ "_data_validations.txt",
      joinReport (wb.sheets.flatMap validationsSection)),
   ( file_prefix ++ "_hyperlinks.txt",
      joinReport (wb.sheets.flatMap hyperlinksSection)),
   ( file_prefix ++ "_named_ranges.txt",
      joinReport (namedRangesSection wb))]

/-- The filesystem effects of `generate_text_reports`: the unconditional
`os.makedirs("excel_reports", exist_ok=True)` on line 40, then one write
per report file under `excel_reports/`. -/
def generate_text_reports_ops (wb : Workbook) ( file_prefix : String) :
    List FsOp :=
  FsOp.mkdir "excel_reports" ::
  (generate_text_reports wb file_prefix).map fun f =>
    FsOp.writeFile ("excel_reports/" ++ f.1) f.2

/-- Lines 160-164: processing of one discovered file — macro extraction
then report generation. -/
def processFile (wb : Workbook) ( file_prefix : String) : List FsOp :=
  parse_vba wb file_prefix ++ generate_text_reports_ops wb file_prefix

/-- Python `name.endswith(EXCEL_FILE_EXTENSIONS)` (line 153): a raw
string-suffix test against each tuple member. -/
def pyEndswithAny (s : String) (suffixes : List String) : Bool :=
  suffixes.any fun suffix => suffix.data.isSuffixOf s.data

/-- Split a character list at its last dot: `some (before, after)` when a
dot exists. -/
def splitAtLastDot : List Char → Option (List Char × List Char)
  | [] => none
  | c :: rest =>
    match splitAtLastDot rest with
    | some (pre, ext) => some (c :: pre, ext)
    | none => if c = '.' then some ([], rest) else none

/-- Python `os.path.splitext(file)[0]` for a bare filename (line 155): drop
the part from the last dot on, unless every character before that dot is
itself a dot (CPython skips the leading dots of a hidden file). -/
def splitextStem (file : String) : String :=
  match splitAtLastDot file.data with
  | none => file
  | some (pre, _) => if pre.any (fun c => c ≠ '.') then String.mk pre else file

/-- One entry of the `os.walk(".")` enumeration: the root directory it was
found in, its bare filename, and the workbook the libraries would parse it
as (irrelevant when the file is not a workbook). -/
structure WalkEntry where
  root : String
  filename : String
  content : Workbook
  deriving DecidableEq

/-- Lines 150-164: the processing effects of the discovery loop — for each
file passing the extension filter, in `os.walk` order, the effects of
`parse_vba` then `generate_text_reports`. -/
def procOps (tree : List WalkEntry) : List FsOp :=
  (tree.filter fun e => pyEndswithAny e.filename EXCEL_FILE_EXTENSIONS).flatMap
    fun e => processFile e.content (splitextStem e.filename)

/-- Lines 143-164, the main block, as the ordered list of filesystem
effects of one full run over the enumerated tree: the two guarded
`shutil.rmtree` calls, then the discovery loop's effects. -/
def mainOps (tree : List WalkEntry) : List FsOp :=
  FsOp.rmtree "src.vba" :: FsOp.rmtree "excel_reports" :: procOps tree

/-- Membership of a string in a list of strings. -/
def memStr (x : String) : List String → Bool
  | [] => false
  | y :: rest => if y = x then true else memStr x rest

/-- Overwrite-or-append semantics of `open(p, "w")` on an association list
of files. -/
def setAssoc : List (String × String) → String → String → List (String × String)
  | [], k, v => [(k, v)]
  | e :: rest, k, v =>
    if e.1 = k then (k, v) :: rest else e :: setAssoc rest k v

/-- A path lies inside directory `d`: it is `d` itself or starts with
`d ++ "/"`. -/
def isUnder (d p : String) : Bool :=
  decide (p = d) || (d.data ++ ['/']).isPrefixOf p.data

/-- The filesystem state the script touches: the set of directories (as a
creation-ordered list) and the files (path, bytes). -/
structure FS where
  dirs : List String
  files : List (String × String)
  deriving DecidableEq

/-- Semantics of one filesystem effect. -/
def applyOp (fs : FS) : FsOp → FS
  | .mkdir d =>
    { fs with dirs := if memStr d fs.dirs then fs.dirs else fs.dirs ++ [d] }
  | .writeFile p c => { fs with files := setAssoc fs.files p c }
  | .rmtree d =>
    { dirs := fs.dirs.filter fun x => !isUnder d x,
      files := fs.files.filter fun e => !isUnder d e.1 }

/-- Sequential execution of a list of effects. -/
def applyOps (fs : FS) (ops : List FsOp) : FS := ops.foldl applyOp fs

/-- A full run of the script on a directory tree, as a filesystem
transformer. -/
def runMain (tree : List WalkEntry) (fs : FS) : FS :=
  applyOps fs (mainOps tree)

/-- First-match lookup in an association list of report files. -/
def lookupStr : List (String × String) → String → Option String
  | [], _ => none
  | e :: rest, key => if e.1 = key then some e.2 else lookupStr rest key

/-- The value `cell.value` exposes in the workbook loaded with the given
`data_only` flag. -/
def cellValueInView (dataOnly : Bool) (c : Cell) : PyValue :=
  if dataOnly then c.valueEvalView else c.valueFormulaView

/-- The formulas-and-values section recomputed from the view selected by
`data_only = dataOnly`, following the spec's description of the section
(iterate non-empty cells, classify, format one line per cell).  Comparing
`generate_text_reports` against `dataOnly = true` or `dataOnly = false`
settles which workbook view the section actually reads. -/
def formulasSectionInView (dataOnly : Bool) (sheet : Sheet) : List String :=
  sheetHeader sheet.name ::
  sheet.rows.flatMap fun row =>
    row.filterMap fun cell =>
      if cellValueInView dataOnly cell = PyValue.pyNone then none
      else some ("Cell " ++ cell.coordinate ++ ": Value='"
        ++ pyStrOf (cellValueInView dataOnly cell) ++ "', Type='"
        ++ cellTypeOf (cellValueInView dataOnly cell) ++ "'")

/-- The whole formulas-and-values report file recomputed from the chosen
view. -/
def formulasFileInView (dataOnly : Bool) (wb : Workbook) : String :=
  joinReport (wb.sheets.flatMap (formulasSectionInView dataOnly))

/-- A cell with default style data, identical entered and evaluated
values, and no hyperlink. -/
def mkCell (coord : String) (v : PyValue) : Cell :=
  { coordinate := coord, valueFormulaView := v, valueEvalView := v,
    fontName := .pyStr "Calibri", fontSize := .pyInt 11,
    fontBold := .pyBool false, fontItalic := .pyBool false,
    fontColorRgb := none, fillColorRgb := none,
    alignmentHorizontal := .pyNone, numberFormat := "General",
    hyperlinkTarget := none }

/-- A sheet named `Sheet1` holding a single cell and nothing else. -/
def oneCellSheet (c : Cell) : Sheet :=
  { name := "Sheet1", rows := [[c]], conditionalFormatting := [],
    mergedRanges := [], dataValidations := [] }

/-- A workbook whose only content is one sheet with one formula cell: the
entered content is the formula text `=SUM(B1:B2)`, the cached evaluated
value is the number 42. -/
def wbFormulaCell : Workbook :=
  { sheets := [oneCellSheet
      { mkCell "A1" (.pyStr "=SUM(B1:B2)") with valueEvalView := .pyInt 42 }],
    definedNames := [], detectVbaMacros := false, macros := [] }

/-- A workbook with no sheets and no macros. -/
def wbPlain : Workbook :=
  { sheets := [], definedNames := [], detectVbaMacros := false, macros := [] }

/-- A workbook whose single macro module holds only the module-name
attribute line. -/
def wbAttrOnlyModule : Workbook :=
  { sheets := [], definedNames := [], detectVbaMacros := true,
    macros := [("Module1", "Attribute VB_Name = \"Module1\"")] }

/-- A workbook in which the macro parser detects no macros (whatever
`extract_all_macros` would have returned is never requested). -/
def wbNoMacros : Workbook :=
  { sheets := [], definedNames := [], detectVbaMacros := false,
    macros := [("Ghost", "Sub X\nEnd Sub")] }

/-- A workbook with macros detected but every module reduced to nothing by
the `Attribute` filter. -/
def wbAllAttrModules : Workbook :=
  { sheets := [], definedNames := [], detectVbaMacros := true,
    macros := [("M1", "Attribute VB_Base = \"0\""),
               ("M2", "Attribute A\r\nAttribute B")] }

/-- A sample filesystem holding stale output directories and files from an
earlier run next to unrelated content. -/
def fsSample : FS :=
  { dirs := ["src.vba", "excel_reports", "docs"],
    files := [("src.vba/old_Module1", "Sub Old\nEnd Sub"),
              ("excel_reports/old_formatting.txt", "Sheet: S\n"),
              ("docs/notes.txt", "keep me")] }

/-- A directory tree with a single non-Excel file. -/
def treeNoExcel : List WalkEntry :=
  [{ root := ".", filename := "README.md", content := wbPlain }]

/-- A path lies in the script's output region: under `src.vba` or under
`excel_reports`. -/
def underOut (p : String) : Bool :=
  isUnder "src.vba" p || isUnder "excel_reports" p

/-- The state after the two guarded `shutil.rmtree` calls of the main
block. -/
def cleanFS (fs : FS) : FS :=
  applyOp (applyOp fs (FsOp.rmtree "src.vba")) (FsOp.rmtree "excel_reports")

/-- An effect that only touches the output region: a directory creation or
a file write inside it (the processing loop performs no removal). -/
def opOut : FsOp → Prop
  | .mkdir d => underOut d = true
  | .writeFile p _ => underOut p = true
  | .rmtree _ => False

/-- No directory of the list lies in the output region. -/
def cleanDirs (l : List String) : Prop := ∀ x ∈ l, underOut x = false

/-- No file of the list lies in the output region. -/
def cleanFiles (l : List (String × String)) : Prop :=
  ∀ e ∈ l, underOut e.1 = false

/-! Helper lemmas about the filesystem model. -/

theorem isPrefixOf_append_self (l m : List Char) : l.isPrefixOf (l ++ m) = true := by
  simp [List.isPrefixOf_iff_prefix]

theorem isUnder_self (d : String) : isUnder d d = true := by
  simp [isUnder]

theorem isUnder_slash (d s : String) : isUnder d (d ++ "/" ++ s) = true := by
  have h : (d ++ "/" ++ s).data = (d.data ++ ['/']) ++ s.data := by
    rw [String.data_append, String.data_append]
  simp [isUnder, h, isPrefixOf_append_self]

theorem underOut_src (s : String) : underOut ("src.vba/" ++ s) = true := by
  have h : ("src.vba/" ++ s) = ("src.vba" ++ "/" ++ s) := rfl
  simp [underOut, h, isUnder_slash]

theorem underOut_rep (s : String) : underOut ("excel_reports/" ++ s) = true := by
  have h : ("excel_reports/" ++ s) = ("excel_reports" ++ "/" ++ s) := rfl
  simp [underOut, h, isUnder_slash]

theorem underOut_src_dir : underOut "src.vba" = true := by
  simp [underOut, isUnder_self]

theorem underOut_rep_dir : underOut "excel_reports" = true := by
  simp [underOut, isUnder_self]

theorem memStr_append (d : String) (xs ys : List String) :
    memStr d (xs ++ ys) = (memStr d xs || memStr d ys) := by
  induction xs with
  | nil => rfl
  | cons y rest ih =>
    by_cases h : y = d <;> simp [memStr, h, ih]

theorem memStr_eq_true_iff (d : String) (l : List String) :
    memStr d l = true ↔ d ∈ l := by
  induction l with
  | nil => simp [memStr]
  | cons y rest ih =>
    by_cases h : y = d
    · subst h; simp [memStr]
    · simp only [memStr, if_neg h, ih, List.mem_cons]
      constructor
      · exact Or.inr
      · rintro (rfl | hd)
        · exact absurd rfl h
        · exact hd

theorem memStr_filter_false {q : String → Bool} {x : String} (hq : q x = false)
    (l : List String) : memStr x (l.filter q) = false := by
  induction l with
  | nil => rfl
  | cons y ys ih =>
    rw [List.filter_cons]
    by_cases hxy : y = x
    · subst hxy; rw [hq]; exact ih
    · cases hqy : q y
      · exact ih
      · simp [memStr, hxy, ih]

theorem memStr_filter_of_false {q : String → Bool} {x : String} {l : List String}
    (h : memStr x l = false) : memStr x (l.filter q) = false := by
  induction l with
  | nil => rfl
  | cons y ys ih =>
    rw [List.filter_cons]
    by_cases hxy : y = x
    · subst hxy; simp [memStr] at h
    · simp only [memStr, hxy, if_false] at h
      cases hqy : q y
      · exact ih h
      · simp [memStr, hxy, ih h]

theorem setAssoc_append {p : String} (cf xf : List (String × String))
    (h : ∀ e ∈ cf, e.1 ≠ p) (v : String) :
    setAssoc (cf ++ xf) p v = cf ++ setAssoc xf p v := by
  induction cf with
  | nil => rfl
  | cons e rest ih =>
    have he : e.1 ≠ p := h e (by simp)
    simp only [List.cons_append, setAssoc, if_neg he]
    exact congrArg (e :: ·) (ih fun x hx => h x (by simp [hx]))

theorem mem_setAssoc {p v : String} {e : String × String}
    (l : List (String × String)) (h : e ∈ setAssoc l p v) :
    e ∈ l ∨ e = (p, v) := by
  induction l with
  | nil =>
    simp only [setAssoc, List.mem_singleton] at h
    exact Or.inr h
  | cons x rest ih =>
    by_cases hx : x.1 = p
    · simp only [setAssoc, if_pos hx] at h
      rcases List.mem_cons.mp h with h | h
      · exact Or.inr h
      · exact Or.inl (List.mem_cons_of_mem _ h)
    · simp only [setAssoc, if_neg hx] at h
      rcases List.mem_cons.mp h with h | h
      · exact Or.inl (h ▸ List.mem_cons_self _ _)
      · rcases ih h with h | h
        · exact Or.inl (List.mem_cons_of_mem _ h)
        · exact Or.inr h

theorem memStr_of_cleanDirs {cd : List String} {d : String}
    (hcd : cleanDirs cd) (hd : underOut d = true) : memStr d cd = false := by
  cases h : memStr d cd
  · rfl
  · have := hcd d ((memStr_eq_true_iff d cd).mp h)
    rw [hd] at this
    exact absurd this (by simp)

theorem applyOp_split {op : FsOp} (hop : opOut op)
    {cd : List String} {cf : List (String × String)}
    (hcd : cleanDirs cd) (hcf : cleanFiles cf)
    (xd : List String) (xf : List (String × String)) :
    applyOp ⟨cd ++ xd, cf ++ xf⟩ op =
      ⟨cd ++ (applyOp ⟨xd, xf⟩ op).dirs, cf ++ (applyOp ⟨xd, xf⟩ op).files⟩ := by
  cases op with
  | mkdir d =>
    have hmem : memStr d cd = false := memStr_of_cleanDirs hcd hop
    simp only [applyOp, memStr_append, hmem, Bool.false_or]
    cases h : memStr d xd
    · simp [h, List.append_assoc]
    · simp [h]
  | writeFile p c =>
    have hkey : ∀ e ∈ cf, e.1 ≠ p := by
      intro e he hep
      have := hcf e he
      rw [hep, hop] at this
      exact absurd this (by simp)
    simp only [applyOp]
    rw [setAssoc_append cf xf hkey]
  | rmtree d => exact absurd hop not_false

theorem applyOps_split {cd : List String} {cf : List (String × String)}
    (hcd : cleanDirs cd) (hcf : cleanFiles cf) :
    ∀ (ops : List FsOp), (∀ op ∈ ops, opOut op) →
    ∀ (xd : List String) (xf : List (String × String)),
    applyOps ⟨cd ++ xd, cf ++ xf⟩ ops =
      ⟨cd ++ (applyOps ⟨xd, xf⟩ ops).dirs, cf ++ (applyOps ⟨xd, xf⟩ ops).files⟩ := by
  intro ops
  induction ops with
  | nil => intro _ xd xf; rfl
  | cons op rest ih =>
    intro hall xd xf
    have hop : opOut op := hall op (by simp)
    have hrest : ∀ o ∈ rest, opOut o := fun o ho => hall o (by simp [ho])
    show applyOps (applyOp ⟨cd ++ xd, cf ++ xf⟩ op) rest = _
    rw [applyOp_split hop hcd hcf xd xf]
    rcases h : applyOp ⟨xd, xf⟩ op with ⟨d2, f2⟩
    rw [ih hrest d2 f2]
    show (⟨cd ++ (applyOps ⟨d2, f2⟩ rest).dirs,
          cf ++ (applyOps ⟨d2, f2⟩ rest).files⟩ : FS) = _
    rw [show applyOps ⟨xd, xf⟩ (op :: rest) = applyOps (applyOp ⟨xd, xf⟩ op) rest
          from rfl, h]

theorem applyOps_out :
    ∀ (ops : List FsOp), (∀ op ∈ ops, opOut op) →
    ∀ (xd : List String) (xf : List (String × String)),
    (∀ x ∈ xd, underOut x = true) → (∀ e ∈ xf, underOut e.1 = true) →
    (∀ x ∈ (applyOps ⟨xd, xf⟩ ops).dirs, underOut x = true) ∧
    (∀ e ∈ (applyOps ⟨xd, xf⟩ ops).files, underOut e.1 = true) := by
  intro ops
  induction ops with
  | nil => intro _ xd xf hd hf; exact ⟨hd, hf⟩
  | cons op rest ih =>
    intro hall xd xf hd hf
    have hop : opOut op := hall op (by simp)
    have hrest : ∀ o ∈ rest, opOut o := fun o ho => hall o (by simp [ho])
    show (∀ x ∈ (applyOps (applyOp ⟨xd, xf⟩ op) rest).dirs, underOut x = true) ∧ _
    cases op with
    | mkdir d =>
      cases h : memStr d xd
      · refine ih hrest (xd ++ [d]) xf ?_ hf |>.imp ?_ ?_
        · intro x hx
          rcases List.mem_append.mp hx with hx | hx
          · exact hd x hx
          · rw [List.mem_singleton.mp hx]; exact hop
        · intro h2
          simpa [applyOps, applyOp, h] using h2
        · intro h2
          simpa [applyOps, applyOp, h] using h2
      · refine ih hrest xd xf hd hf |>.imp ?_ ?_
        · intro h2; simpa [applyOps, applyOp, h] using h2
        · intro h2; simpa [applyOps, applyOp, h] using h2
    | writeFile p c =>
      refine ih hrest xd (setAssoc xf p c) hd ?_ |>.imp ?_ ?_
      · intro e he
        rcases mem_setAssoc xf he with he | he
        · exact hf e he
        · rw [he]; exact hop
      · intro h2; simpa [applyOps, applyOp] using h2
      · intro h2; simpa [applyOps, applyOp] using h2
    | rmtree d => exact absurd hop not_false

theorem parse_vba_out {wb : Workbook} {fp : String} :
    ∀ op ∈ parse_vba wb fp, opOut op := by
  intro op hop
  rcases List.mem_flatMap.mp hop with ⟨m, _, hm⟩
  by_cases he : (filterModuleContent m.2).isEmpty
  · simp [he] at hm
  · simp only [he, if_neg, if_false, Bool.false_eq_true] at hm
    rcases List.mem_cons.mp hm with h | h
    · rw [h]; exact underOut_src_dir
    · rw [List.mem_singleton.mp h]
      show underOut ("src.vba/" ++ fp ++ "_" ++ m.1) = true
      rw [String.append_assoc, String.append_assoc]
      exact underOut_src _

theorem reports_ops_out {wb : Workbook} {fp : String} :
    ∀ op ∈ generate_text_reports_ops wb fp, opOut op := by
  intro op hop
  rcases List.mem_cons.mp hop with h | h
  · rw [h]; exact underOut_rep_dir
  · rcases List.mem_map.mp h with ⟨f, _, hf⟩
    rw [← hf]
    exact underOut_rep _

theorem processFile_out {wb : Workbook} {fp : String} :
    ∀ op ∈ processFile wb fp, opOut op := by
  intro op hop
  rcases List.mem_append.mp hop with h | h
  · exact parse_vba_out op h
  · exact reports_ops_out op h

theorem procOps_out (tree : List WalkEntry) : ∀ op ∈ procOps tree, opOut op := by
  intro op hop
  rcases List.mem_flatMap.mp hop with ⟨e, _, he⟩
  exact processFile_out op he

theorem cleanFS_clean (fs : FS) :
    cleanDirs (cleanFS fs).dirs ∧ cleanFiles (cleanFS fs).files := by
  constructor
  · intro x hx
    have h2 := List.mem_filter.mp hx
    have h1 := List.mem_filter.mp h2.1
    have hs : isUnder "src.vba" x = false := by
      simpa using h1.2
    have hr : isUnder "excel_reports" x = false := by
      simpa using h2.2
    simp [underOut, hs, hr]
  · intro e he
    have h2 := List.mem_filter.mp he
    have h1 := List.mem_filter.mp h2.1
    have hs : isUnder "src.vba" e.1 = false := by
      simpa using h1.2
    have hr : isUnder "excel_reports" e.1 = false := by
      simpa using h2.2
    simp [underOut, hs, hr]

theorem cleanFS_append {cd yd : List String} {cf yf : List (String × String)}
    (hcd : cleanDirs cd) (hcf : cleanFiles cf)
    (hyd : ∀ x ∈ yd, underOut x = true) (hyf : ∀ e ∈ yf, underOut e.1 = true) :
    cleanFS ⟨cd ++ yd, cf ++ yf⟩ = ⟨cd, cf⟩ := by
  have dirOf : ∀ x : String, underOut x = false →
      (!isUnder "src.vba" x) = true ∧ (!isUnder "excel_reports" x) = true := by
    intro x hx
    simp only [underOut, Bool.or_eq_false_iff] at hx
    simp [hx.1, hx.2]
  have dropOf : ∀ x : String, underOut x = true →
      (!isUnder "src.vba" x) = true → (!isUnder "excel_reports" x) = false := by
    intro x hx h1
    simp only [underOut, Bool.or_eq_true] at hx
    rcases hx with hx | hx
    · rw [hx] at h1; exact absurd h1 (by simp)
    · simp [hx]
  simp only [cleanFS, applyOp]
  congr 1
  · rw [List.filter_append, List.filter_append]
    rw [List.filter_eq_self.mpr fun x hx => (dirOf x (hcd x hx)).1]
    rw [List.filter_eq_self.mpr fun x hx => (dirOf x (hcd x hx)).2]
    rw [List.filter_eq_nil_iff.mpr ?drop, List.append_nil]
    case drop =>
      intro x hx
      have hmem := List.mem_filter.mp hx
      simp [dropOf x (hyd x hmem.1) hmem.2]
  · rw [List.filter_append, List.filter_append]
    rw [List.filter_eq_self.mpr fun e he => (dirOf e.1 (hcf e he)).1]
    rw [List.filter_eq_self.mpr fun e he => (dirOf e.1 (hcf e he)).2]
    rw [List.filter_eq_nil_iff.mpr ?dropf, List.append_nil]
    case dropf =>
      intro e he
      have hmem := List.mem_filter.mp he
      simp [dropOf e.1 (hyf e hmem.1) hmem.2]

theorem runMain_split (tree : List WalkEntry) (fs : FS) :
    runMain tree fs =
      ⟨(cleanFS fs).dirs ++ (applyOps ⟨[], []⟩ (procOps tree)).dirs,
       (cleanFS fs).files ++ (applyOps ⟨[], []⟩ (procOps tree)).files⟩ := by
  have hc := cleanFS_clean fs
  have h0 : runMain tree fs = applyOps (cleanFS fs) (procOps tree) := rfl
  have heta : cleanFS fs = ⟨(cleanFS fs).dirs ++ [], (cleanFS fs).files ++ []⟩ := by
    simp
  rw [h0]
  conv_lhs => rw [heta]
  exact applyOps_split hc.1 hc.2 (procOps tree) (procOps_out tree) [] []

/-! The claims. -/

/-- C1, counterexample: in the workbook whose cell A1 holds the formula
`=SUM(B1:B2)` with cached evaluated value 42, the formulas-and-values
report renders the formula text as the Value field (classified Text), and
differs from the file the value-evaluated view would have produced — so
the report is not taken from the value-evaluated workbook view. -/
theorem C1_eval_view_counterexample :
    lookupStr (generate_text_reports wbFormulaCell "book")
        "book_formulas_and_values.txt"
      = some (joinReport [sheetHeader "Sheet1",
          "Cell A1: Value='=SUM(B1:B2)', Type='Text'"])
    ∧ lookupStr (generate_text_reports wbFormulaCell "book")
        "book_formulas_and_values.txt"
      ≠ some (formulasFileInView true wbFormulaCell) := by
  exact ⟨rfl, by decide⟩

/-- C1, amended: the formulas-and-values report of `generate_text_reports`
equals, for every workbook and prefix, the file recomputed from the
formula-preserving view (`data_only=False`): the Value field is the
entered cell content, which for a formula cell is the formula text; the
value-evaluated view is loaded but never read by this section. -/
theorem C1_formula_view_amended (wb : Workbook) (fp : String) :
    lookupStr (generate_text_reports wb fp) (fp ++ "_formulas_and_values.txt")
      = some (formulasFileInView false wb) := by
  have hsec : ∀ s, formulasSectionInView false s = formulasSection s :=
    fun s => rfl
  show (if fp ++ "_formulas_and_values.txt" = fp ++ "_formulas_and_values.txt"
      then some (joinReport (wb.sheets.flatMap formulasSection))
      else lookupStr _ (fp ++ "_formulas_and_values.txt")) = _
  rw [if_pos rfl]
  unfold formulasFileInView
  rw [funext hsec]

/-- C2: the type classifier tests `isinstance(v, (int, float))` before
`isinstance(v, bool)`, and a Python boolean is an instance of `int`, so a
boolean cell is reported as `Type='Number'`, never reaching the Boolean
branch: the cell B2 = TRUE yields the line
`Cell B2: Value='True', Type='Number'`. -/
theorem C2_boolean_reported_as_number :
    cellTypeOf (PyValue.pyBool true) = "Number"
    ∧ formulasSection (oneCellSheet (mkCell "B2" (PyValue.pyBool true)))
        = [sheetHeader "Sheet1", "Cell B2: Value='True', Type='Number'"] :=
  ⟨rfl, rfl⟩

/-- C3, counterexample: the name `foo.not_xlsx` ends with the four
characters `xlsx`, so the raw suffix filter selects it and the
orchestrator processes it (with prefix `foo`), contrary to the claim that
it is not selected. -/
theorem C3_not_xlsx_matches :
    pyEndswithAny "foo.not_xlsx" EXCEL_FILE_EXTENSIONS = true
    ∧ mainOps [{ root := ".", filename := "foo.not_xlsx", content := wbPlain }]
      = FsOp.rmtree "src.vba" :: FsOp.rmtree "excel_reports"
          :: processFile wbPlain "foo" :=
  ⟨rfl, rfl⟩

/-- C3, amended: a file named exactly `foo.not_xlsx` IS selected by the
discovery filter (the raw string-suffix test matches its trailing `xlsx`)
and is processed as an Excel file with prefix `foo`, whatever else the
tree holds. -/
theorem C3_not_xlsx_selected (root : String) (wb : Workbook)
    (rest : List WalkEntry) :
    mainOps ({ root := root, filename := "foo.not_xlsx", content := wb } :: rest)
      = FsOp.rmtree "src.vba" :: FsOp.rmtree "excel_reports"
          :: (processFile wb "foo" ++ procOps rest) := by
  unfold mainOps procOps
  rw [List.filter_cons]
  simp only [show pyEndswithAny "foo.not_xlsx" EXCEL_FILE_EXTENSIONS = true
      from rfl, if_true, List.flatMap_cons]
  rfl

/-- C4: a file named exactly `fooxls` (no dot) is selected by the
discovery filter — the check is a raw string-suffix test and `fooxls`
ends with `xls` — and is processed as an Excel file (its prefix is the
whole name, there being no extension to strip). -/
theorem C4_fooxls_selected_and_processed (root : String) (wb : Workbook) :
    pyEndswithAny "fooxls" EXCEL_FILE_EXTENSIONS = true
    ∧ mainOps [{ root := root, filename := "fooxls", content := wb }]
      = FsOp.rmtree "src.vba" :: FsOp.rmtree "excel_reports"
          :: processFile wb "fooxls" := by
  refine ⟨rfl, ?_⟩
  unfold mainOps procOps
  rw [List.filter_cons]
  simp only [show pyEndswithAny "fooxls" EXCEL_FILE_EXTENSIONS = true from rfl,
    if_true, List.flatMap_cons, List.filter_nil, List.flatMap_nil,
    List.append_nil]
  rfl

/-- C5: with `KEEP_NAME = False`, a workbook whose only macro module
consists of the single line `Attribute VB_Name = "Module1"` makes
`parse_vba` write nothing: every `Attribute` line is filtered out, the
filtered content is empty, and an empty module produces no file (and no
directory). -/
theorem C5_attribute_only_module_unwritten (wb : Workbook) (fp mname : String)
    (h : wb.macros = [(mname, "Attribute VB_Name = \"Module1\"")]) :
    parse_vba wb fp = [] := by
  have hfil : filterModuleContent "Attribute VB_Name = \"Module1\"" = [] := rfl
  unfold parse_vba
  rw [h]
  cases hd : wb.detectVbaMacros <;> simp [hd, hfil]

/-- C5 witness: the theorem applied to the concrete workbook whose one
module holds only the module-name attribute line. -/
theorem C5_attribute_only_module_unwritten_witness :
    parse_vba wbAttrOnlyModule "book" = [] :=
  C5_attribute_only_module_unwritten wbAttrOnlyModule "book" "Module1" rfl

/-- C6: when the macro parser detects no VBA macros, `parse_vba` performs
no filesystem effect at all — no file and no `src.vba` directory — so the
filesystem is left unchanged. -/
theorem C6_no_macros_filesystem_unchanged (wb : Workbook) (fp : String)
    (fs : FS) (h : wb.detectVbaMacros = false) :
    parse_vba wb fp = [] ∧ applyOps fs (parse_vba wb fp) = fs := by
  have hnil : parse_vba wb fp = [] := by
    unfold parse_vba
    rw [h]
    rfl
  exact ⟨hnil, by rw [hnil]; rfl⟩

/-- C6 witness: the theorem applied to the concrete workbook with no
detected macros and the sample filesystem. -/
theorem C6_no_macros_filesystem_unchanged_witness :
    parse_vba wbNoMacros "m" = []
    ∧ applyOps fsSample (parse_vba wbNoMacros "m") = fsSample :=
  C6_no_macros_filesystem_unchanged wbNoMacros "m" fsSample rfl

/-- C7: when no file of the tree passes the Excel extension filter, a full
run ends with neither a `src.vba` nor an `excel_reports` directory: the
two initial `rmtree` calls remove any pre-existing ones and no processing
step recreates them. -/
theorem C7_no_excel_files_no_output_dirs (tree : List WalkEntry) (fs : FS)
    (h : ∀ e ∈ tree, pyEndswithAny e.filename EXCEL_FILE_EXTENSIONS = false) :
    memStr "src.vba" (runMain tree fs).dirs = false
    ∧ memStr "excel_reports" (runMain tree fs).dirs = false := by
  have hfil : (tree.filter fun e =>
      pyEndswithAny e.filename EXCEL_FILE_EXTENSIONS) = [] := by
    refine List.filter_eq_nil_iff.mpr ?_
    intro e he
    rw [h e he]
    simp
  have hrun : runMain tree fs = cleanFS fs := by
    unfold runMain mainOps procOps
    rw [hfil]
    rfl
  rw [hrun]
  constructor
  · show memStr "src.vba"
      (List.filter _ (List.filter (fun x => !isUnder "src.vba" x) fs.dirs))
        = false
    exact memStr_filter_of_false
      (memStr_filter_false (by simp [isUnder_self]) fs.dirs)
  · show memStr "excel_reports"
      (List.filter (fun x => !isUnder "excel_reports" x) _) = false
    exact memStr_filter_false (by simp [isUnder_self]) _

/-- C7 witness: the theorem applied to a tree holding only `README.md`
and a filesystem still holding both output directories from an earlier
run. -/
theorem C7_no_excel_files_no_output_dirs_witness :
    memStr "src.vba" (runMain treeNoExcel fsSample).dirs = false
    ∧ memStr "excel_reports" (runMain treeNoExcel fsSample).dirs = false :=
  C7_no_excel_files_no_output_dirs treeNoExcel fsSample (by decide)

/-- C8: a cell whose value is non-None but falsy gets a line in the
formulas-and-values section (its filter is `value is not None`) and no
line in the formatting section (its filter is truthiness). -/
theorem C8_falsy_cell_lines (c : Cell)
    (h1 : c.valueFormulaView ≠ PyValue.pyNone)
    (h2 : pyTruthy c.valueFormulaView = false) :
    formulasSection (oneCellSheet c)
      = [sheetHeader "Sheet1",
         "Cell " ++ c.coordinate ++ ": Value='" ++ pyStrOf c.valueFormulaView
           ++ "', Type='" ++ cellTypeOf c.valueFormulaView ++ "'"]
    ∧ formattingSection (oneCellSheet c) = [sheetHeader "Sheet1"] := by
  constructor
  · simp [formulasSection, oneCellSheet, h1]
  · simp [formattingSection, oneCellSheet, h2]

/-- C8 witness: the theorem applied to a cell holding the number 0 — the
formulas report shows `Value='0', Type='Number'`, the formatting report
shows nothing for it. -/
theorem C8_falsy_cell_lines_witness :
    formulasSection (oneCellSheet (mkCell "A1" (PyValue.pyInt 0)))
      = [sheetHeader "Sheet1", "Cell A1: Value='0', Type='Number'"]
    ∧ formattingSection (oneCellSheet (mkCell "A1" (PyValue.pyInt 0)))
      = [sheetHeader "Sheet1"] :=
  C8_falsy_cell_lines (mkCell "A1" (PyValue.pyInt 0)) (by decide) (by decide)

/-- C9: the script is idempotent as a filesystem transformer — a second
run over the unchanged tree reproduces the first run's state exactly
(byte-identical report files): each run first clears the output region
and then regenerates it as a deterministic function of the tree alone. -/
theorem C9_two_runs_identical (tree : List WalkEntry) (fs : FS) :
    runMain tree (runMain tree fs) = runMain tree fs := by
  have h1 := runMain_split tree fs
  have h2 := runMain_split tree (runMain tree fs)
  have hout := applyOps_out (procOps tree) (procOps_out tree) [] []
    (by intro x hx; cases hx) (by intro e he; cases he)
  have hc := cleanFS_clean fs
  have hcln : cleanFS (runMain tree fs) = cleanFS fs := by
    conv_lhs => rw [h1]
    rw [cleanFS_append hc.1 hc.2 hout.1 hout.2]
  rw [h2, hcln, ← h1]

/-- C10: when macros are detected but every module's content is empty
after the Attribute filter, `parse_vba` performs no effect: in
particular it never creates the `src.vba` directory, whose creation is
guarded by (and immediately precedes) the first non-empty write. -/
theorem C10_all_filtered_empty_no_dir (wb : Workbook) (fp : String) (fs : FS)
    (hd : wb.detectVbaMacros = true)
    (hall : ∀ m ∈ wb.macros, filterModuleContent m.2 = []) :
    parse_vba wb fp = [] ∧ applyOps fs (parse_vba wb fp) = fs := by
  have hnil : parse_vba wb fp = [] := by
    unfold parse_vba
    rw [hd]
    simp only [if_true]
    refine List.flatMap_eq_nil_iff.mpr ?_
    intro m hm
    simp [hall m hm]
  exact ⟨hnil, by rw [hnil]; rfl⟩

/-- C10 witness: the theorem applied to the concrete workbook whose two
detected modules both filter to nothing. -/
theorem C10_all_filtered_empty_no_dir_witness :
    parse_vba wbAllAttrModules "m" = []
    ∧ applyOps fsSample (parse_vba wbAllAttrModules "m") = fsSample :=
  C10_all_filtered_empty_no_dir wbAllAttrModules "m" fsSample rfl (by decide)

end PreCommit
